import Mathlib

set_option maxHeartbeats 1000000
set_option maxRecDepth 4000

/-! Shallow embedding of the traffic-accident data downloader
    (archive-name version selection, per-column CSV parsing and
    normalization, and the three-tier per-region cache), together with
    theorems settling the specification claims. -/

abbrev Str := List Char

/-- Decimal-digit test for one character of a candidate link. -/
def isDigitCh (c : Char) : Bool := c.isDigit

/-- The literal `l` occurs in `s` starting at index `i`. -/
def litAt (s : Str) (i : Nat) (l : Str) : Bool :=
  decide ((s.drop i).take l.length = l)

/-- `n` decimal digits occur in `s` starting at index `i`. -/
def digitsAt (s : Str) (i n : Nat) : Bool :=
  decide (((s.drop i).take n).length = n) && ((s.drop i).take n).all isDigitCh

/-- Four year digits followed by the zip suffix occur at index `i`. -/
def yearZipAt (s : Str) (i : Nat) : Bool :=
  digitsAt s i 4 && litAt s (i + 4) (".zip".data)

/-- The month-form period-tag alternative of the pattern occurs at `i`. -/
def monthAt (s : Str) (i : Nat) : Bool :=
  match s.get? i, s.get? (i + 1), s.get? (i + 2) with
  | some c0, some c1, some c2 =>
      (c0 == '0' || c0 == '1') && isDigitCh c1 && (c2 == '-')
  | _, _, _ => false

/-- Capture data of one attempted tail match of the archive pattern:
    the optional period-tag group, the year group, and the end index. -/
structure PartM where
  g1 : Option Str
  g2 : Str
  ep : Nat
deriving DecidableEq

/-- One attempt of the tail of the pattern at offset `q`: the optional
    group alternatives are tried in source order (month form, then the
    rok form, then empty), exactly as a backtracking engine does at a
    fixed position of the preceding greedy subpattern. -/
def tryAt (s : Str) (q : Nat) : Option PartM :=
  if monthAt s q && yearZipAt s (q + 3) then
    some ⟨some ((s.drop q).take 3), (s.drop (q + 3)).take 4, q + 11⟩
  else if litAt s q ("-rok-".data) && yearZipAt s (q + 5) then
    some ⟨some ("-rok-".data), (s.drop (q + 5)).take 4, q + 13⟩
  else if yearZipAt s q then
    some ⟨none, (s.drop q).take 4, q + 8⟩
  else none

/-- Scan of the greedy inner subpattern: offsets `p0 + e` are tried with
    `e` descending, the first success wins. -/
def findFrom (s : Str) (p0 : Nat) : Nat → Option PartM
  | 0 => tryAt s p0
  | e + 1 =>
    match tryAt s (p0 + (e + 1)) with
    | some r => some r
    | none => findFrom s p0 e

/-- The archive marker occurs at index `d`. -/
def datagisAt (s : Str) (d : Nat) : Bool := litAt s d ("datagis".data)

/-- Scan of the greedy leading subpattern: marker positions are tried
    last-first, each with a full scan of the inner subpattern. -/
def findDFrom (s : Str) : Nat → Option PartM
  | 0 => if datagisAt s 0 then findFrom s 7 s.length else none
  | d + 1 =>
    if datagisAt s (d + 1) then
      match findFrom s (d + 1 + 7) s.length with
      | some r => some r
      | none => findDFrom s d
    else findDFrom s d

/-- A successful search result: whole match, period-tag group, year group. -/
structure RMatch where
  g0 : Str
  g1 : Option Str
  g2 : Str
deriving DecidableEq

/-- Search of the anchored archive-name pattern over a link string. -/
def reZipSearchL (s : Str) : Option RMatch :=
  match findDFrom s s.length with
  | some r => some ⟨s.take r.ep, r.g1, r.g2⟩
  | none => none

/-- Lexicographic comparison of strings by character code, as the
    source's string comparison operator does. -/
def strLt : Str → Str → Bool
  | [], [] => false
  | [], _ :: _ => true
  | _ :: _, [] => false
  | a :: as, b :: bs => if a < b then true else if b < a then false else strLt as bs

/-- The period-tag comparison condition of the selector: both candidates
    carry a tag and the held one's tag sorts after the new one's. -/
def tagCond (lm m : RMatch) : Bool :=
  match lm.g1, m.g1 with
  | some a, some b => strLt b a
  | _, _ => false

/-- The selector loop over candidate links, carrying the held match and
    emitting in encounter order. -/
def genLoop : Option RMatch → List Str → List Str
  | none, [] => []
  | some lm, [] => [lm.g0]
  | last, link :: rest =>
    match reZipSearchL link with
    | none => genLoop last rest
    | some m =>
      match last with
      | none => genLoop (some m) rest
      | some lm =>
        (if strLt lm.g2 m.g2 then
          (if tagCond lm m then [lm.g0]
           else if strLt m.g0 lm.g0 then [lm.g0]
           else [])
         else []) ++ genLoop (some m) rest

/-- The version selector over a list of candidate link strings. -/
def getLatestZipUrls (links : List Str) : List Str := genLoop none links

/-- Variant of the selector loop with the period-tag comparison branch
    removed: every emit decision uses whole-string comparison only. -/
def genLoopNoTag : Option RMatch → List Str → List Str
  | none, [] => []
  | some lm, [] => [lm.g0]
  | last, link :: rest =>
    match reZipSearchL link with
    | none => genLoopNoTag last rest
    | some m =>
      match last with
      | none => genLoopNoTag (some m) rest
      | some lm =>
        (if strLt lm.g2 m.g2 then
          (if strLt m.g0 lm.g0 then [lm.g0] else [])
         else []) ++ genLoopNoTag (some m) rest

/-- Selector variant built on the tag-free loop. -/
def getLatestZipUrlsNoTag (links : List Str) : List Str := genLoopNoTag none links

/-- A literal occurring at `i` fits inside the string. -/
lemma litAt_le (s l : Str) (i : Nat) (h : litAt s i l = true) :
    l.length ≤ s.length - i := by
  have h' : (s.drop i).take l.length = l := of_decide_eq_true h
  have hlen := congrArg List.length h'
  simp only [List.length_take, List.length_drop] at hlen
  calc l.length = min l.length (s.length - i) := hlen.symm
    _ ≤ s.length - i := Nat.min_le_right _ _

/-- A year-and-suffix occurrence at `i` fits inside the string. -/
lemma yearZip_le (s : Str) (i : Nat) (h : yearZipAt s i = true) :
    i + 8 ≤ s.length := by
  simp only [yearZipAt, digitsAt, Bool.and_eq_true, decide_eq_true_eq] at h
  obtain ⟨⟨hd', _⟩, hz⟩ := h
  simp only [List.length_take, List.length_drop] at hd'
  have h4 : 4 ≤ s.length - i := by
    calc (4 : Nat) = min 4 (s.length - i) := hd'.symm
      _ ≤ s.length - i := Nat.min_le_right _ _
  have hzle := litAt_le s (".zip".data) (i + 4) hz
  have hzl : (".zip".data).length = 4 := rfl
  rw [hzl] at hzle
  omega

/-- Whenever the plain year-and-suffix alternative holds at an offset,
    the tail attempt at that offset succeeds with some alternative. -/
lemma tryAt_of_yearZip (s : Str) (q : Nat) (h : yearZipAt s q = true) :
    tryAt s q ≠ none := by
  unfold tryAt
  split
  · simp
  · split
    · simp
    · simp [h]

/-- A successful tail attempt that captured a period tag implies a plain
    year-and-suffix occurrence three or five characters further right. -/
lemma tryAt_g1_some (s : Str) (q : Nat) (r : PartM)
    (h : tryAt s q = some r) (hg : r.g1.isSome = true) :
    yearZipAt s (q + 3) = true ∨ yearZipAt s (q + 5) = true := by
  unfold tryAt at h
  split at h
  · next hc =>
      rw [Bool.and_eq_true] at hc
      exact Or.inl hc.2
  · split at h
    · next hc =>
        rw [Bool.and_eq_true] at hc
        exact Or.inr hc.2
    · split at h
      · cases h; simp at hg
      · cases h

/-- The descending scan returns the first offset, counting down, at which
    the tail attempt succeeds; every larger offset in range fails. -/
lemma findFrom_spec (s : Str) (p0 : Nat) :
    ∀ (e : Nat) (r : PartM), findFrom s p0 e = some r →
      ∃ e₀, e₀ ≤ e ∧ tryAt s (p0 + e₀) = some r ∧
        ∀ e₁, e₀ < e₁ → e₁ ≤ e → tryAt s (p0 + e₁) = none := by
  intro e
  induction e with
  | zero =>
    intro r h
    refine ⟨0, Nat.le_refl 0, ?_, ?_⟩
    · simpa [findFrom] using h
    · intro e₁ h1 h2; omega
  | succ e ih =>
    intro r h
    unfold findFrom at h
    cases htry : tryAt s (p0 + (e + 1)) with
    | some r' =>
      rw [htry] at h
      cases h
      exact ⟨e + 1, Nat.le_refl _, htry, fun e₁ h1 h2 => by omega⟩
    | none =>
      rw [htry] at h
      obtain ⟨e₀, he, ht, hmax⟩ := ih r h
      refine ⟨e₀, by omega, ht, ?_⟩
      intro e₁ h1 h2
      rcases Nat.lt_or_ge e₁ (e + 1) with hlt | hge
      · exact hmax e₁ h1 (by omega)
      · have heq : e₁ = e + 1 := by omega
        rw [heq]; exact htry

/-- Greedy scan of the inner subpattern with full fuel never captures a
    period tag: any tagged success is preempted by a plain success at a
    strictly larger offset, which the scan tries first. -/
lemma findFrom_g1_none (s : Str) (p0 : Nat) (r : PartM)
    (h : findFrom s p0 s.length = some r) : r.g1 = none := by
  obtain ⟨e₀, he, ht, hmax⟩ := findFrom_spec s p0 s.length r h
  cases hg : r.g1 with
  | none => rfl
  | some t =>
    have hsome : r.g1.isSome = true := by rw [hg]; rfl
    rcases tryAt_g1_some s (p0 + e₀) r ht hsome with hy | hy
    · have hb := yearZip_le s (p0 + e₀ + 3) hy
      have h3 : tryAt s (p0 + (e₀ + 3)) ≠ none := by
        have harr : p0 + (e₀ + 3) = p0 + e₀ + 3 := by omega
        rw [harr]; exact tryAt_of_yearZip s (p0 + e₀ + 3) hy
      exact absurd (hmax (e₀ + 3) (by omega) (by omega)) h3
    · have hb := yearZip_le s (p0 + e₀ + 5) hy
      have h5 : tryAt s (p0 + (e₀ + 5)) ≠ none := by
        have harr : p0 + (e₀ + 5) = p0 + e₀ + 5 := by omega
        rw [harr]; exact tryAt_of_yearZip s (p0 + e₀ + 5) hy
      exact absurd (hmax (e₀ + 5) (by omega) (by omega)) h5

/-- No marker position yields a tagged capture. -/
lemma findDFrom_g1_none (s : Str) : ∀ d r, findDFrom s d = some r → r.g1 = none := by
  intro d
  induction d with
  | zero =>
    intro r h
    unfold findDFrom at h
    split at h
    · exact findFrom_g1_none s 7 r h
    · cases h
  | succ d ih =>
    intro r h
    unfold findDFrom at h
    split at h
    · cases hf : findFrom s (d + 1 + 7) s.length with
      | some r' =>
        rw [hf] at h; cases h
        exact findFrom_g1_none s (d + 1 + 7) r hf
      | none =>
        rw [hf] at h
        exact ih r h
    · exact ih r h

/-- Every successful search of the archive pattern leaves the optional
    period-tag group empty. -/
lemma reZip_g1_none (s : Str) (m : RMatch) (h : reZipSearchL s = some m) :
    m.g1 = none := by
  unfold reZipSearchL at h
  cases hd : findDFrom s s.length with
  | none => rw [hd] at h; cases h
  | some r =>
    rw [hd] at h
    cases h
    exact findDFrom_g1_none s s.length r hd

/-- The tag comparison is vacuous when the new candidate has no tag. -/
lemma tagCond_none_right (lm m : RMatch) (h : m.g1 = none) :
    tagCond lm m = false := by
  unfold tagCond
  rw [h]
  cases lm.g1 <;> rfl

/-- The selector loop coincides with its tag-free variant on every input:
    the period-tag comparison branch is dead code. -/
lemma genLoop_eq_noTag : ∀ (links : List Str) (last : Option RMatch),
    genLoop last links = genLoopNoTag last links := by
  intro links
  induction links with
  | nil => intro last; cases last <;> rfl
  | cons link rest ih =>
    intro last
    cases hm : reZipSearchL link with
    | none =>
      cases last with
      | none => simp only [genLoop, genLoopNoTag, hm]; exact ih none
      | some lm => simp only [genLoop, genLoopNoTag, hm]; exact ih (some lm)
    | some m =>
      cases last with
      | none => simp only [genLoop, genLoopNoTag, hm]; exact ih (some m)
      | some lm =>
        have hcond : tagCond lm m = false :=
          tagCond_none_right lm m (reZip_g1_none link m hm)
        simp only [genLoop, genLoopNoTag, hm, hcond, Bool.false_eq_true, if_false]
        rw [ih (some m)]

/-- Equal strings never compare strictly less. -/
lemma strLt_irrefl : ∀ s : Str, strLt s s = false := by
  intro s
  induction s with
  | nil => rfl
  | cons a as ih => simp [strLt, lt_irrefl, ih]

/-- The region-to-entry table: each fixed three-letter region code mapped
    to the two-digit CSV entry name inside every archive. -/
def regionFile : List (Str × Str) :=
  [("PHA".data, "00.csv".data), ("STC".data, "01.csv".data),
   ("JHC".data, "02.csv".data), ("PLK".data, "03.csv".data),
   ("ULK".data, "04.csv".data), ("HHK".data, "05.csv".data),
   ("JHM".data, "06.csv".data), ("MSK".data, "07.csv".data),
   ("OLK".data, "14.csv".data), ("ZLK".data, "15.csv".data),
   ("VYS".data, "16.csv".data), ("PAK".data, "17.csv".data),
   ("LBK".data, "18.csv".data), ("KVK".data, "19.csv".data)]

/-- The fixed 65-entry emitted column-name sequence. -/
def header : List Str :=
  List.map String.data
    ["ID", "Druh komunikace", "Cislo komunikace",
     "Datum", "Den", "Cas", "Druh nehody",
     "Druh srazky", "Druh prekazky", "Charakter",
     "Zavineni", "Alkohol pritomen", "Hlavni priciny",
     "Usmrceno osob", "Tezce zraneno osob", "Lehce zraneno osob",
     "Celkova skoda", "Druh povrchu", "Stav povrchu", "Stav komunikace",
     "Povetrnostni podminky", "Viditelnost", "Rozhledove pomery",
     "Deleni komunikace", "Situovani", "Rizeni provozu",
     "Mistni uprava", "Specificka mista", "Smerove pomery", "Pocet vozidel",
     "Misto nehody", "Druh krizujici komunikace", "Druh vozidla",
     "Vyrobni znacka vozidla", "Rok vyroby", "Charakteristika vozidla",
     "Smyk", "Vozidlo po nehode", "Unik hmot", "Zpusob vyprosteni",
     "Smer jizdy vozidla", "Skoda na vozidle",
     "Kategorie ridice", "Stav ridice", "Vnejsi ovlivneni ridice",
     "a", "b", "d", "e", "f", "g", "h", "i", "j", "k", "l", "n",
     "o", "p", "q", "r", "s", "t", "Lokalita", "Region"]

/-- The declared per-column type strings of the 64 data columns, in order. -/
def types : List Str :=
  List.map String.data
    ["U12", "int8", "U3", "U10", "int8", "U5",
     "int8", "int8", "int8", "int8", "int8", "int8",
     "int16", "int8", "int8", "int8", "int16", "int8",
     "int8", "int8", "int8", "int8", "int8", "int8",
     "int8", "int8", "int8", "int8", "int8", "int8",
     "int8", "int8", "int8", "int8", "int8", "int8",
     "int8", "int8", "int8", "int8", "int8", "int16",
     "int8", "int8", "int8", "U16", "U16", "U16", "U16",
     "U16", "U16", "U50", "U25", "U16", "U20", "U16",
     "U16", "U16", "U20", "U16", "U6", "U6", "U20", "U20"]

/-- The declared type string of column `idx`. -/
def typeAt (idx : Nat) : Str := types.getD idx []

/-- The quote-stripping and decimal-separator normalization applied to
    every raw field before the sentinel checks. -/
def convClean (s : Str) : Str :=
  (s.filter (fun c => c ≠ '"')).map (fun c => if c = ',' then '.' else c)

/-- The per-column converter closure: sentinel and empty-value handling
    keyed on the column's declared type string. -/
def converter (idx : Nat) (data : Str) : Str :=
  let d := convClean data
  if typeAt idx = "int8".data ∧ d = "XX".data then "0".data
  else if d = [] then (if ('U' ∈ typeAt idx) then [] else "0".data)
  else d

/-- A parsed cell: the CSV reader produces fixed-width strings; a cast
    column would hold 8- or 16-bit signed integers. -/
inductive Cell
  | str (s : Str)
  | i8 (n : Int)
  | i16 (n : Int)
deriving DecidableEq

/-- Column-major table: 64 data rows of the transposed array (one per
    declared column) plus, after the append, the region marker row; each
    row's length is the record count. -/
abbrev Table := List (List Cell)

/-- Interpreted column kind derived from a declared type string. -/
inductive ColKind
  | i8k
  | i16k
  | ustr (w : Nat)
deriving DecidableEq

/-- Digit accumulation for the width part of a type string. -/
def natOfDigits (s : Str) : Nat :=
  s.foldl (fun a c => if c.isDigit then a * 10 + (c.toNat - 48) else a) 0

/-- Kind of a declared type string. -/
def kindOf (t : Str) : ColKind :=
  if t = "int8".data then ColKind.i8k
  else if t = "int16".data then ColKind.i16k
  else ColKind.ustr (natOfDigits (t.drop 1))

/-- Two's-complement wrap of an integer to a signed width, modelling the
    narrowing integer cast of the array library. -/
def wrapSigned (w : Nat) (z : Int) : Int :=
  (z + 2 ^ (w - 1)) % 2 ^ w - 2 ^ (w - 1)

/-- Integer reading of a decimal string, modelling the string-to-integer
    conversion inside the (discarded) cast. -/
def strToIntPy (s : Str) : Int :=
  match s with
  | '-' :: rest => -(natOfDigits rest : Int)
  | _ => (natOfDigits s : Int)

/-- The per-value cast a column's declared type would apply. -/
def castCell (k : ColKind) (c : Cell) : Cell :=
  match k, c with
  | ColKind.i8k, Cell.str s => Cell.i8 (wrapSigned 8 (strToIntPy s))
  | ColKind.i16k, Cell.str s => Cell.i16 (wrapSigned 16 (strToIntPy s))
  | ColKind.ustr w, Cell.str s => Cell.str (s.take w)
  | _, c => c

/-- Cast of one whole column to its declared type. -/
def astypeCol (t : Str) (col : List Cell) : List Cell :=
  col.map (castCell (kindOf t))

/-- The per-column cast loop of the source: each iteration computes the
    cast of one column and rebinds the loop variable to it, so every cast
    result is discarded and the parsed data is returned unchanged. -/
def astypeForLoop (data : Table) : Table :=
  let _casts := data.enum.map (fun p => astypeCol (typeAt p.1) p.2)
  data

/-- The CSV read restricted to the first 64 fields: every field passes
    through its column's converter and is stored as a fixed-width string
    of at most 23 characters; the transpose yields one row per declared
    column. Models the array-library text reader at its call site (the
    two-or-more-record regime, in which the result is two-dimensional). -/
def gencolumns (rows : List (List Str)) : Table :=
  (List.range 64).map
    (fun idx => rows.map (fun row => Cell.str ((converter idx (row.getD idx [])).take 23)))

/-- An archive on disk: its filename and its named CSV entries, each a
    list of already-split raw records. -/
structure ZipArchive where
  fname : Str
  entries : List (Str × List (List Str))
deriving DecidableEq

/-- The entry-name directory of an archive. -/
def zipNamelist (ar : ZipArchive) : List Str := ar.entries.map Prod.fst

/-- Association lookup keyed by string, modelling dictionary indexing. -/
def alookup {α : Type} : List (Str × α) → Str → Option α
  | [], _ => none
  | (k, v) :: rest, key => if k = key then some v else alookup rest key

/-- Result of parsing one archive for one region: the empty tuple (region
    entry absent) or the 65-row table. -/
inductive ParseResult
  | emptyTup
  | table (t : Table)
deriving DecidableEq

/-- The missing-entry warning text. -/
def warnMissing (region fname : Str) : Str :=
  region ++ " is not in ".data ++ fname

/-- The unknown-region warning text. -/
def warnRegion (region : Str) : Str :=
  region ++ " is not in region list".data

/-- Parse of one archive for a region whose CSV entry name is already
    resolved: a missing entry yields the empty tuple and one logged
    warning; otherwise the converted columns pass through the (no-effect)
    cast loop and the region marker row is appended. -/
def parseZipValid (ar : ZipArchive) (csvName : Str) (region : Str) :
    ParseResult × List Str :=
  if ((zipNamelist ar).contains csvName) = false then
    (ParseResult.emptyTup, [warnMissing region ar.fname])
  else
    let rows := (alookup ar.entries csvName).getD []
    let data := astypeForLoop (gencolumns rows)
    (ParseResult.table (data ++ [List.replicate rows.length (Cell.str region)]), [])

/-- Parse of one archive for a region: dictionary indexing of the region
    table first (absent region codes would raise, but every caller checks
    membership beforehand). -/
def parseZipFile (ar : ZipArchive) (region : Str) :
    Option (ParseResult × List Str) :=
  (alookup regionFile region).map (fun csvName => parseZipValid ar csvName region)

/-- Empty-tuple test on a parse result. -/
def isEmptyTup : ParseResult → Bool
  | ParseResult.emptyTup => true
  | ParseResult.table _ => false

/-- The underlying table of a parse result. -/
def toTable : ParseResult → Table
  | ParseResult.emptyTup => []
  | ParseResult.table t => t

/-- Record-axis concatenation of two column-major tables. -/
def rowsAppend (a b : Table) : Table :=
  List.zipWith (fun u v => u ++ v) a b

/-- Concatenation along the record axis, modelling the array library at
    its call sites: an empty input list raises; an empty tuple among the
    inputs is a one-dimensional argument and raises a dimension-mismatch
    error; tables must agree in row count. -/
def npConcatAxis1 : List ParseResult → Except Str Table
  | [] => Except.error ("need at least one array to concatenate".data)
  | x :: rest =>
    if (x :: rest).any isEmptyTup then
      Except.error ("all the input arrays must have the same number of dimensions".data)
    else if rest.all (fun r => (toTable r).length == (toTable x).length) then
      Except.ok (rest.foldl (fun acc r => rowsAppend acc (toTable r)) (toTable x))
    else Except.error ("array dimensions do not match".data)

/-- Whether a folder filename matches the archive pattern. -/
def zipMatches (ar : ZipArchive) : Bool := (reZipSearchL ar.fname).isSome

/-- The archives of the folder whose names match the pattern. -/
def matchedZips (zips : List ZipArchive) : List ZipArchive :=
  zips.filter zipMatches

/-- Region parse over the folder contents: an unknown region code logs
    one warning and returns the absent result; otherwise every archive
    matching the naming pattern contributes a parse and the contributions
    are concatenated (the download step performs no logging and is
    modelled by the archives already being present). -/
def parseRegionData (zips : List ZipArchive) (region : Str) :
    Except Str (Option (List Str × Table)) × List Str :=
  match alookup regionFile region with
  | none => (Except.ok none, [warnRegion region])
  | some csvName =>
    let prs := (matchedZips zips).map (fun a => parseZipValid a csvName region)
    let warns := (prs.map Prod.snd).flatten
    match npConcatAxis1 (prs.map Prod.fst) with
    | Except.error e => (Except.error e, warns)
    | Except.ok t => (Except.ok (some (header, t)), warns)

/-- One token of the serialized cache artifact stream. -/
inductive Tok
  | n (k : Nat)
  | c (ch : Char)
deriving DecidableEq

/-- The value persisted per region: exactly what the region parse
    returned, absent or a header-and-table pair. -/
abbrev CacheVal := Option (List Str × Table)

/-- Length-prefixed string encoding. -/
def encStrT (s : Str) : List Tok := Tok.n s.length :: s.map Tok.c

/-- Decode a known number of character tokens. -/
def decChars : Nat → List Tok → Option (Str × List Tok)
  | 0, rest => some ([], rest)
  | k + 1, Tok.c ch :: rest =>
    match decChars k rest with
    | some (cs, r2) => some (ch :: cs, r2)
    | none => none
  | _ + 1, _ => none

/-- Decode a length-prefixed string. -/
def decStrT : List Tok → Option (Str × List Tok)
  | Tok.n k :: rest => decChars k rest
  | _ => none

/-- Sign-and-magnitude integer encoding. -/
def encIntT (z : Int) : List Tok :=
  [Tok.n (if z < 0 then 1 else 0), Tok.n z.natAbs]

/-- Decode a sign-and-magnitude integer. -/
def decIntT : List Tok → Option (Int × List Tok)
  | Tok.n s :: Tok.n m :: rest =>
    some ((if s = 1 then -(m : Int) else (m : Int)), rest)
  | _ => none

/-- Length-prefixed list encoding over an element encoder. -/
def encListT {α : Type} (enc : α → List Tok) (xs : List α) : List Tok :=
  Tok.n xs.length :: (xs.map enc).flatten

/-- Decode a known number of elements with an element decoder. -/
def decListN {α : Type} (dec : List Tok → Option (α × List Tok)) :
    Nat → List Tok → Option (List α × List Tok)
  | 0, rest => some ([], rest)
  | k + 1, ts =>
    match dec ts with
    | some (x, r1) =>
      match decListN dec k r1 with
      | some (xs, r2) => some (x :: xs, r2)
      | none => none
    | none => none

/-- Decode a length-prefixed list. -/
def decListTop {α : Type} (dec : List Tok → Option (α × List Tok)) :
    List Tok → Option (List α × List Tok)
  | Tok.n k :: rest => decListN dec k rest
  | _ => none

/-- Tagged cell encoding. -/
def encCellT : Cell → List Tok
  | Cell.str s => Tok.n 0 :: encStrT s
  | Cell.i8 z => Tok.n 1 :: encIntT z
  | Cell.i16 z => Tok.n 2 :: encIntT z

/-- Decode a tagged cell. -/
def decCellT : List Tok → Option (Cell × List Tok)
  | Tok.n 0 :: rest => (decStrT rest).map (fun p => (Cell.str p.1, p.2))
  | Tok.n 1 :: rest => (decIntT rest).map (fun p => (Cell.i8 p.1, p.2))
  | Tok.n 2 :: rest => (decIntT rest).map (fun p => (Cell.i16 p.1, p.2))
  | _ => none

/-- Modelled from the spec: the compressed serialized cache artifact
    format (an external serialization library at the call site, not part
    of this repository's sources). The spec fixes only that the artifact
    is a serialized `(header, table)` pair whose exact byte format is an
    internal detail that round-trips losslessly; it is modelled as a
    concrete token-stream codec. -/
def encCacheValT : CacheVal → List Tok
  | none => [Tok.n 0]
  | some (h, t) =>
    Tok.n 1 :: (encListT encStrT h ++ encListT (encListT encCellT) t)

/-- Decode of a serialized cache value. -/
def decCacheValT : List Tok → Option (CacheVal × List Tok)
  | Tok.n 0 :: rest => some (none, rest)
  | Tok.n 1 :: rest =>
    match decListTop decStrT rest with
    | some (h, r1) =>
      match decListTop (decListTop decCellT) r1 with
      | some (t, r2) => some (some (h, t), r2)
      | none => none
    | none => none
  | _ => none

/-- Serialize a cache value to an artifact stream. -/
def pickleDump (v : CacheVal) : List Tok := encCacheValT v

/-- Deserialize an artifact stream back to a cache value. -/
def pickleLoad (ts : List Tok) : Option CacheVal :=
  match decCacheValT ts with
  | some (v, _) => some v
  | none => none

lemma decChars_enc (s : Str) (rest : List Tok) :
    decChars s.length (s.map Tok.c ++ rest) = some (s, rest) := by
  induction s with
  | nil => rfl
  | cons c cs ih => simp [decChars, ih]

lemma decStrT_enc (s : Str) (rest : List Tok) :
    decStrT (encStrT s ++ rest) = some (s, rest) := by
  simp [encStrT, decStrT, decChars_enc]

lemma decIntT_enc (z : Int) (rest : List Tok) :
    decIntT (encIntT z ++ rest) = some (z, rest) := by
  by_cases hz : z < 0
  · simp only [encIntT, if_pos hz, List.cons_append, List.nil_append, decIntT,
      if_pos rfl]
    have habs : -(z.natAbs : Int) = z := by omega
    simp only [if_pos rfl, habs]
    simp
  · simp only [encIntT, if_neg hz, List.cons_append, List.nil_append, decIntT]
    rw [if_neg (by omega : ¬ (0 : Nat) = 1)]
    have habs : (z.natAbs : Int) = z := by omega
    rw [habs]

lemma decCellT_enc (c : Cell) (rest : List Tok) :
    decCellT (encCellT c ++ rest) = some (c, rest) := by
  cases c with
  | str s => simp [encCellT, decCellT, decStrT_enc]
  | i8 z => simp [encCellT, decCellT, decIntT_enc]
  | i16 z => simp [encCellT, decCellT, decIntT_enc]

lemma decListN_enc {α : Type} (dec : List Tok → Option (α × List Tok))
    (enc : α → List Tok)
    (hdec : ∀ (x : α) (rest : List Tok), dec (enc x ++ rest) = some (x, rest)) :
    ∀ (xs : List α) (rest : List Tok),
      decListN dec xs.length ((xs.map enc).flatten ++ rest) = some (xs, rest) := by
  intro xs
  induction xs with
  | nil => intro rest; rfl
  | cons x tl ih =>
    intro rest
    simp only [List.map_cons, List.flatten_cons, List.length_cons, List.append_assoc]
    simp [decListN, hdec, ih]

lemma decListTop_enc {α : Type} (dec : List Tok → Option (α × List Tok))
    (enc : α → List Tok)
    (hdec : ∀ (x : α) (rest : List Tok), dec (enc x ++ rest) = some (x, rest))
    (xs : List α) (rest : List Tok) :
    decListTop dec (encListT enc xs ++ rest) = some (xs, rest) := by
  simp [encListT, decListTop, decListN_enc dec enc hdec]

lemma decCacheValT_enc (v : CacheVal) (rest : List Tok) :
    decCacheValT (encCacheValT v ++ rest) = some (v, rest) := by
  cases v with
  | none => rfl
  | some p =>
    obtain ⟨h, t⟩ := p
    have hh := decListTop_enc decStrT encStrT decStrT_enc h
      (encListT (encListT encCellT) t ++ rest)
    have ht := decListTop_enc (decListTop decCellT) (encListT encCellT)
      (fun x r => decListTop_enc decCellT encCellT decCellT_enc x r) t rest
    simp only [encCacheValT, List.cons_append, List.append_assoc, decCacheValT, hh, ht]

/-- The artifact codec round-trips losslessly. -/
lemma pickle_roundtrip (v : CacheVal) : pickleLoad (pickleDump v) = some v := by
  have h := decCacheValT_enc v []
  rw [List.append_nil] at h
  simp [pickleLoad, pickleDump, h]

deriving instance DecidableEq for Except

/-- The per-region disk artifact path, from the fixed filename template
    parameterized on the region code. -/
def cachePath (region : Str) : Str :=
  "data_".data ++ region ++ ".pkl.gz".data

/-- Dictionary key membership. -/
def hasKey {α : Type} (l : List (Str × α)) (k : Str) : Bool :=
  (alookup l k).isSome

/-- The mutable state of one downloader instance: the in-memory map and
    the on-disk cache artifacts keyed by path. -/
structure DState where
  memData : List (Str × CacheVal)
  disk : List (Str × List Tok)
deriving DecidableEq

/-- The three-tier region lookup: (1) in-memory map membership, on which
    the source indexes the map with the literal key string rather than
    the region variable; (2) the on-disk artifact, deserialized and
    returned directly; (3) cold miss: parse, persist to disk, insert into
    the in-memory map, return. -/
def getRegionData (zips : List ZipArchive) (st : DState) (region : Str) :
    Except Str CacheVal × DState × List Str :=
  if hasKey st.memData region then
    match alookup st.memData ("region".data) with
    | some v => (Except.ok v, st, [])
    | none => (Except.error ("KeyError: region".data), st, [])
  else
    match alookup st.disk (cachePath region) with
    | some toks =>
      match pickleLoad toks with
      | some v => (Except.ok v, st, [])
      | none => (Except.error ("unpickling error".data), st, [])
    | none =>
      match parseRegionData zips region with
      | (Except.error e, w) => (Except.error e, st, w)
      | (Except.ok v, w) =>
        (Except.ok v,
         ⟨(region, v) :: st.memData, (cachePath region, pickleDump v) :: st.disk⟩,
         w)

/-- The default region list of the merge entry point. -/
def default14 : List Str :=
  List.map String.data
    ["PHA", "STC", "JHC", "PLK", "ULK",
     "HHK", "JHM", "MSK", "OLK", "ZLK",
     "VYS", "PAK", "LBK", "KVK"]

/-- Sequential per-region lookups of the merge entry point, taking the
    table component of each returned pair (subscripting an absent result
    raises a type error). -/
def getTables (zips : List ZipArchive) :
    DState → List Str → Except Str (List Table) × DState × List Str
  | st, [] => (Except.ok [], st, [])
  | st, r :: rs =>
    match getRegionData zips st r with
    | (Except.error e, st', w) => (Except.error e, st', w)
    | (Except.ok v, st', w) =>
      match v with
      | none => (Except.error ("TypeError: NoneType is not subscriptable".data), st', w)
      | some (_, t) =>
        match getTables zips st' rs with
        | (Except.error e, st'', w2) => (Except.error e, st'', w ++ w2)
        | (Except.ok ts, st'', w2) => (Except.ok (t :: ts), st'', w ++ w2)

/-- The merge entry point: per-region tables obtained through the cache
    are concatenated along the record axis under the shared header. -/
def getList (zips : List ZipArchive) (st : DState) (regions0 : List Str) :
    Except Str (List Str × Table) × DState × List Str :=
  let regions := if regions0 = [] then default14 else regions0
  match getTables zips st regions with
  | (Except.error e, st', w) => (Except.error e, st', w)
  | (Except.ok ts, st', w) =>
    match npConcatAxis1 (ts.map ParseResult.table) with
    | Except.error e => (Except.error e, st', w)
    | Except.ok t => (Except.ok (header, t), st', w)

/-- The record count of a column-major table. -/
def rowCount (t : Table) : Nat := (t.getD 0 []).length

/-- A disk hit returns the deserialized artifact and leaves the state,
    including the in-memory map, unchanged. -/
lemma grd_disk_hit (zips : List ZipArchive) (st : DState) (region : Str)
    (toks : List Tok) (v : CacheVal)
    (hmem : hasKey st.memData region = false)
    (hdisk : alookup st.disk (cachePath region) = some toks)
    (hload : pickleLoad toks = some v) :
    getRegionData zips st region = (Except.ok v, st, []) := by
  simp [getRegionData, hmem, hdisk, hload]

/-- A cold miss parses, persists the artifact, and inserts the parsed
    value into the in-memory map. -/
lemma grd_cold (zips : List ZipArchive) (st : DState) (region : Str)
    (v : CacheVal) (w : List Str)
    (hmem : hasKey st.memData region = false)
    (hdisk : alookup st.disk (cachePath region) = none)
    (hparse : parseRegionData zips region = (Except.ok v, w)) :
    getRegionData zips st region =
      (Except.ok v,
       ⟨(region, v) :: st.memData, (cachePath region, pickleDump v) :: st.disk⟩,
       w) := by
  simp [getRegionData, hmem, hdisk, hparse]

/-- The path template is injective in the region code. -/
lemma cachePath_inj (a b : Str) (h : cachePath a = cachePath b) : a = b := by
  unfold cachePath at h
  rw [List.append_assoc, List.append_assoc] at h
  have h1 : a ++ ".pkl.gz".data = b ++ ".pkl.gz".data :=
    List.append_cancel_left h
  exact List.append_cancel_right h1

/-- Indexing a record-axis concatenation below both lengths reads the
    concatenation of the two tables' rows at that index. -/
lemma rowsAppend_getD (a b : Table) :
    ∀ (i : Nat), i < a.length → i < b.length →
      (rowsAppend a b).getD i [] = a.getD i [] ++ b.getD i [] := by
  induction a generalizing b with
  | nil => intro i h1 h2; simp at h1
  | cons ha ta ih =>
    intro i h1 h2
    cases b with
    | nil => simp at h2
    | cons hb tb =>
      cases i with
      | zero => simp [rowsAppend]
      | succ n =>
        simp only [rowsAppend, List.zipWith_cons_cons, List.getD_cons_succ]
        exact ih tb n (by simpa using h1) (by simpa using h2)

/-- A raw CSV record of 64 fields, each the digit one. -/
def rowOnes : List Str := List.replicate 64 ("1".data)

/-- A matched archive holding the region entry of the first region with
    two records. -/
def archGood : ZipArchive :=
  ⟨"datagis-2021.zip".data, [("00.csv".data, [rowOnes, rowOnes])]⟩

/-- A matched archive lacking the region entry of the first region. -/
def archMissing : ZipArchive :=
  ⟨"datagis-2020.zip".data, [("01.csv".data, [rowOnes, rowOnes])]⟩

/-- The parsed cell every converted field of the sample record yields. -/
def oneCell : Cell := Cell.str ("1".data)

/-- The region-marker cell of the first region. -/
def phaCell : Cell := Cell.str ("PHA".data)

/-- The table the sample archive parses to: 64 data rows of string cells
    plus the appended region marker row. -/
def tGood : Table := List.replicate 64 [oneCell, oneCell] ++ [[phaCell, phaCell]]

/-- The cache value obtained by parsing the sample archive. -/
def vSample : CacheVal := some (header, tGood)

/-- A state whose disk holds the sample artifact and whose memory map is
    empty. -/
def stDiskOnly : DState := ⟨[], [(cachePath ("PHA".data), pickleDump vSample)]⟩

/-- A month-form candidate archive name. -/
def zipMonthStr : Str := "datagis-01-2020.zip".data

/-- A whole-year-form candidate archive name of the same year. -/
def zipRokStr : Str := "datagis-rok-2020.zip".data

/-- C10: every input link matched by the archive-name pattern has an
    empty period-tag capture (the greedy prefix consumes any month or
    rok marker), so no candidate carries a period tag, the tag-comparison
    branch of the selector is never taken, and every emit decision falls
    through to whole-string lexicographic comparison. -/
theorem c10_no_period_tag_capture :
    (∀ (s : Str) (m : RMatch), reZipSearchL s = some m → m.g1 = none) ∧
    (∀ links : List Str, getLatestZipUrls links = getLatestZipUrlsNoTag links) :=
  ⟨reZip_g1_none, fun links => genLoop_eq_noTag links none⟩

/-- C2 counterexample: for the same-year pair of a month-form and a
    rok-form candidate, the selector's emission depends only on input
    order (the later-seen candidate is emitted), whereas the documented
    tag-comparison tie-break is order-independent and names the candidate
    with the lexicographically smaller tag (the rok form, since its tag
    sorts before the month tag); on the rok-then-month order the claim's
    predicted winner is not the emitted one. -/
theorem c2_counterexample :
    getLatestZipUrls [zipRokStr, zipMonthStr] = [zipMonthStr] ∧
    getLatestZipUrls [zipMonthStr, zipRokStr] = [zipRokStr] ∧
    strLt ("-rok-".data) ("01-".data) = true ∧
    zipMonthStr ≠ zipRokStr := by
  exact ⟨by decide, by decide, by decide, by decide⟩

/-- C2 amended: for two matched candidates carrying the same year, the
    selector emits the later-seen candidate (last-seen-wins): the
    year-increase guard is false on equal years, so no tie-break of any
    kind runs and the held candidate is silently replaced. -/
theorem c2_same_year_last_seen (l1 l2 : Str) (m1 m2 : RMatch)
    (h1 : reZipSearchL l1 = some m1) (h2 : reZipSearchL l2 = some m2)
    (hy : m1.g2 = m2.g2) :
    getLatestZipUrls [l1, l2] = [m2.g0] := by
  have hirr : strLt m1.g2 m2.g2 = false := by
    rw [hy]; exact strLt_irrefl m2.g2
  simp [getLatestZipUrls, genLoop, h1, h2, hirr]

/-- C2 amended, witness at the concrete same-year pair. -/
theorem c2_same_year_last_seen_witness :
    getLatestZipUrls [zipRokStr, zipMonthStr] = [zipMonthStr] :=
  c2_same_year_last_seen zipRokStr zipMonthStr
    ⟨zipRokStr, none, "2020".data⟩ ⟨zipMonthStr, none, "2020".data⟩
    (by decide) (by decide) rfl

/-- C3 counterexample: column 12 is declared 16-bit signed integer, yet
    the converter leaves its sentinel value unchanged — the sentinel
    coercion tests the declared type string against the 8-bit name only. -/
theorem c3_counterexample :
    typeAt 12 = "int16".data ∧
    kindOf (typeAt 12) = ColKind.i16k ∧
    converter 12 ("XX".data) = "XX".data ∧
    ("XX".data : Str) ≠ "0".data := by
  exact ⟨by decide, by decide, by decide, by decide⟩

/-- C3 amended: the sentinel token normalizes to zero only in 8-bit
    integer columns and is left unchanged in 16-bit integer columns; an
    empty raw value normalizes to zero in integer columns of either width
    and to the empty string in fixed-width string columns. -/
theorem c3_normalization_by_declared_type (i : Nat) (hi : i < 64) :
    (typeAt i = "int8".data → converter i ("XX".data) = "0".data) ∧
    (typeAt i = "int16".data → converter i ("XX".data) = "XX".data) ∧
    ((kindOf (typeAt i) = ColKind.i8k ∨ kindOf (typeAt i) = ColKind.i16k) →
      converter i [] = "0".data) ∧
    (kindOf (typeAt i) ≠ ColKind.i8k → kindOf (typeAt i) ≠ ColKind.i16k →
      converter i [] = []) := by
  interval_cases i <;> exact (by decide)

/-- C3 amended, witness at the 16-bit column 12. -/
theorem c3_normalization_by_declared_type_witness :
    converter 12 ("XX".data) = "XX".data ∧ converter 12 [] = "0".data :=
  ⟨(c3_normalization_by_declared_type 12 (by decide)).2.1 (by decide),
   (c3_normalization_by_declared_type 12 (by decide)).2.2.1 (Or.inr (by decide))⟩

/-- Any list of parse results containing an empty-tuple contribution
    makes the record-axis concatenation raise. -/
lemma npConcat_error_of_empty_mem (xs : List ParseResult)
    (h : ParseResult.emptyTup ∈ xs) :
    ∃ e, npConcatAxis1 xs = Except.error e := by
  cases xs with
  | nil => cases h
  | cons x rest =>
    have hany : (x :: rest).any isEmptyTup = true :=
      List.any_eq_true.mpr ⟨ParseResult.emptyTup, h, rfl⟩
    refine ⟨("all the input arrays must have the same number of dimensions".data), ?_⟩
    simp [npConcatAxis1, hany]

/-- C1 (code defect): the per-column cast loop rebinds its loop variable
    to the cast result and discards it, so the parsed table returned for
    a region keeps every cell as a fixed-width string — in particular the
    cells of column 1, declared 8-bit signed integer, remain string
    cells, while the cast the declaration calls for would produce an
    integer cell. -/
theorem c1_declared_types_not_applied :
    (∀ d : Table, astypeForLoop d = d) ∧
    (parseZipValid archGood ("00.csv".data) ("PHA".data)).1 = ParseResult.table tGood ∧
    tGood.getD 1 [] = [oneCell, oneCell] ∧
    typeAt 1 = "int8".data ∧
    castCell (kindOf (typeAt 1)) oneCell = Cell.i8 1 ∧
    oneCell ≠ Cell.i8 1 := by
  exact ⟨fun d => rfl, by decide, by decide, by decide, by decide, by decide⟩

/-- C4 counterexample: an archive lacking the region's CSV entry parses
    to the empty result with one logged warning and no exception, but the
    subsequent per-region merge of that empty contribution with a valid
    contribution raises a dimension-mismatch error instead of producing
    the valid rows. -/
theorem c4_counterexample :
    parseZipFile archMissing ("PHA".data) =
      some (ParseResult.emptyTup, [warnMissing ("PHA".data) archMissing.fname]) ∧
    (parseRegionData [archMissing, archGood] ("PHA".data)).1 =
      Except.error
        ("all the input arrays must have the same number of dimensions".data) := by
  exact ⟨by decide, by decide⟩

/-- C4 amended: parsing an archive that lacks the region's CSV entry
    returns an empty result and logs a warning without raising, but
    empty contributions are not filtered before the per-region merge, so
    whenever any matched archive contributes an empty result the merge
    raises a concatenation error rather than yielding the valid rows. -/
theorem c4_empty_contribution_merge_raises (zips : List ZipArchive)
    (region csvName : Str) (a : ZipArchive)
    (hreg : alookup regionFile region = some csvName)
    (hmem : a ∈ zips) (hmatch : zipMatches a = true)
    (hempty : (parseZipValid a csvName region).1 = ParseResult.emptyTup) :
    ∃ e, (parseRegionData zips region).1 = Except.error e := by
  have hmf : a ∈ matchedZips zips := List.mem_filter.mpr ⟨hmem, hmatch⟩
  have hprs : ParseResult.emptyTup ∈
      ((matchedZips zips).map (fun ar => parseZipValid ar csvName region)).map
        Prod.fst := by
    rw [← hempty]
    exact List.mem_map.mpr
      ⟨parseZipValid a csvName region, List.mem_map.mpr ⟨a, hmf, rfl⟩, rfl⟩
  obtain ⟨e, he⟩ := npConcat_error_of_empty_mem _ hprs
  refine ⟨e, ?_⟩
  simp only [parseRegionData, hreg]
  rw [he]

/-- C4 amended, witness at the concrete two-archive folder. -/
theorem c4_empty_contribution_merge_raises_witness :
    ∃ e, (parseRegionData [archMissing, archGood] ("PHA".data)).1 =
      Except.error e :=
  c4_empty_contribution_merge_raises [archMissing, archGood] ("PHA".data)
    ("00.csv".data) archMissing (by decide) (by decide) (by decide) (by decide)

/-- C5 (code defect): when the requested region is present in the
    in-memory map, the lookup indexes the map with the literal key string
    rather than the region variable, so the memory tier raises a key
    error instead of returning the stored table. -/
theorem c5_memory_hit_raises :
    getRegionData [] ⟨[(("PHA".data), vSample)], []⟩ ("PHA".data) =
      (Except.error ("KeyError: region".data),
       ⟨[(("PHA".data), vSample)], []⟩, []) := by
  decide

/-- C6 counterexample: a lookup served from the on-disk artifact returns
    the deserialized value with the state — including the in-memory
    map — unchanged, while a cold-miss fresh parse does insert its result
    into the in-memory map; the claimed asymmetry is inverted. -/
theorem c6_counterexample :
    (getRegionData [] stDiskOnly ("PHA".data) = (Except.ok vSample, stDiskOnly, []) ∧
     stDiskOnly.memData = []) ∧
    (getRegionData [archGood] ⟨[], []⟩ ("PHA".data)).2.1.memData =
      [(("PHA".data), vSample)] := by
  refine ⟨⟨?_, rfl⟩, ?_⟩
  · exact grd_disk_hit [] stDiskOnly ("PHA".data) (pickleDump vSample) vSample rfl
      (by simp [stDiskOnly, alookup]) (pickle_roundtrip vSample)
  · rw [grd_cold [archGood] ⟨[], []⟩ ("PHA".data) vSample [] rfl rfl (by decide)]

/-- C6 amended: only the cold-miss fresh-parse path populates the
    in-memory map — a disk hit deserializes and returns without touching
    any state, while a fresh parse writes the artifact to disk and also
    inserts the parsed value into the in-memory map. -/
theorem c6_cache_population_asymmetry (zips : List ZipArchive) (st : DState)
    (region : Str) (hmem : hasKey st.memData region = false) :
    (∀ toks v, alookup st.disk (cachePath region) = some toks →
        pickleLoad toks = some v →
        getRegionData zips st region = (Except.ok v, st, [])) ∧
    (alookup st.disk (cachePath region) = none →
      ∀ v w, parseRegionData zips region = (Except.ok v, w) →
        (getRegionData zips st region).2.1.memData = (region, v) :: st.memData ∧
        (getRegionData zips st region).2.1.disk =
          (cachePath region, pickleDump v) :: st.disk) := by
  constructor
  · intro toks v hdisk hload
    exact grd_disk_hit zips st region toks v hmem hdisk hload
  · intro hdisk v w hparse
    rw [grd_cold zips st region v w hmem hdisk hparse]
    exact ⟨rfl, rfl⟩

/-- C6 amended, witness on the disk-hit path. -/
theorem c6_cache_population_asymmetry_witness :
    getRegionData [] stDiskOnly ("PHA".data) = (Except.ok vSample, stDiskOnly, []) :=
  (c6_cache_population_asymmetry [] stDiskOnly ("PHA".data) rfl).1
    (pickleDump vSample) vSample (by simp [stDiskOnly, alookup])
    (pickle_roundtrip vSample)

/-- C7: a region parse persisted by the cold-miss path is written as the
    serialized pair, the artifact deserializes back to the identical
    pair (same header, same rows, every cell equal), and a later lookup
    against that disk state returns exactly the freshly parsed pair. -/
theorem c7_cache_write_read_lossless (zips : List ZipArchive) (region : Str)
    (h : List Str) (t : Table) (w : List Str)
    (hparse : parseRegionData zips region = (Except.ok (some (h, t)), w)) :
    getRegionData zips ⟨[], []⟩ region =
      (Except.ok (some (h, t)),
       ⟨[(region, some (h, t))], [(cachePath region, pickleDump (some (h, t)))]⟩,
       w) ∧
    pickleLoad (pickleDump (some (h, t))) = some (some (h, t)) ∧
    getRegionData zips ⟨[], [(cachePath region, pickleDump (some (h, t)))]⟩ region =
      (Except.ok (some (h, t)),
       ⟨[], [(cachePath region, pickleDump (some (h, t)))]⟩, []) := by
  refine ⟨?_, pickle_roundtrip _, ?_⟩
  · exact grd_cold zips ⟨[], []⟩ region (some (h, t)) w rfl rfl hparse
  · exact grd_disk_hit zips _ region (pickleDump (some (h, t))) (some (h, t))
      rfl (by simp [alookup]) (pickle_roundtrip _)

/-- C7 witness at the concrete sample archive. -/
theorem c7_cache_write_read_lossless_witness :
    getRegionData [archGood] ⟨[], []⟩ ("PHA".data) =
      (Except.ok vSample,
       ⟨[(("PHA".data), vSample)], [(cachePath ("PHA".data), pickleDump vSample)]⟩,
       []) ∧
    pickleLoad (pickleDump vSample) = some vSample ∧
    getRegionData [archGood] ⟨[], [(cachePath ("PHA".data), pickleDump vSample)]⟩
        ("PHA".data) =
      (Except.ok vSample, ⟨[], [(cachePath ("PHA".data), pickleDump vSample)]⟩, []) :=
  c7_cache_write_read_lossless [archGood] ("PHA".data) header tGood [] (by decide)

/-- C8: requesting a region code outside the fixed fourteen logs exactly
    one warning and returns the absent result, which no header-and-table
    pair — in particular no zero-row table — can equal. -/
theorem c8_unknown_region_absent (zips : List ZipArchive) (region : Str)
    (h : alookup regionFile region = none) :
    parseRegionData zips region = (Except.ok none, [warnRegion region]) ∧
    (∀ p : List Str × Table, (none : Option (List Str × Table)) ≠ some p) := by
  constructor
  · simp [parseRegionData, h]
  · intro p hp
    cases hp

/-- C8 witness at a concrete unknown region code. -/
theorem c8_unknown_region_absent_witness :
    parseRegionData [] ("XYZ".data) = (Except.ok none, [warnRegion ("XYZ".data)]) :=
  (c8_unknown_region_absent [] ("XYZ".data) (by decide)).1

/-- A disk state caching tables for two distinct regions. -/
def twoRegionDisk (a b : Str) (ta tb : Table) : DState :=
  ⟨[], [(cachePath a, pickleDump (some (header, ta))),
        (cachePath b, pickleDump (some (header, tb)))]⟩

/-- C9: merging two cached regions yields the record-axis concatenation
    of their tables under the shared header: its record count is the sum
    of the two single-region record counts, and the region-marker row
    (index 64) of the merged table is the two marker rows side by side,
    every entry unchanged. -/
theorem c9_merge_rowcount_markers (a b : Str) (ta tb : Table)
    (hab : a ≠ b) (hla : ta.length = 65) (hlb : tb.length = 65) :
    (getList [] (twoRegionDisk a b ta tb) [a, b]).1 =
      Except.ok (header, rowsAppend ta tb) ∧
    (getList [] (twoRegionDisk a b ta tb) [a]).1 = Except.ok (header, ta) ∧
    (getList [] (twoRegionDisk a b ta tb) [b]).1 = Except.ok (header, tb) ∧
    rowCount (rowsAppend ta tb) = rowCount ta + rowCount tb ∧
    (rowsAppend ta tb).getD 64 [] = ta.getD 64 [] ++ tb.getD 64 [] := by
  have hpath : cachePath a ≠ cachePath b := fun hc => hab (cachePath_inj a b hc)
  have hda : alookup (twoRegionDisk a b ta tb).disk (cachePath a) =
      some (pickleDump (some (header, ta))) := by
    simp [twoRegionDisk, alookup]
  have hdb : alookup (twoRegionDisk a b ta tb).disk (cachePath b) =
      some (pickleDump (some (header, tb))) := by
    simp [twoRegionDisk, alookup, if_neg hpath]
  have hga : getRegionData [] (twoRegionDisk a b ta tb) a =
      (Except.ok (some (header, ta)), twoRegionDisk a b ta tb, []) :=
    grd_disk_hit [] _ a _ _ rfl hda (pickle_roundtrip _)
  have hgb : getRegionData [] (twoRegionDisk a b ta tb) b =
      (Except.ok (some (header, tb)), twoRegionDisk a b ta tb, []) :=
    grd_disk_hit [] _ b _ _ rfl hdb (pickle_roundtrip _)
  have h1 : getTables [] (twoRegionDisk a b ta tb) [a] =
      (Except.ok [ta], twoRegionDisk a b ta tb, []) := by
    simp [getTables, hga]
  have h2 : getTables [] (twoRegionDisk a b ta tb) [b] =
      (Except.ok [tb], twoRegionDisk a b ta tb, []) := by
    simp [getTables, hgb]
  have h12 : getTables [] (twoRegionDisk a b ta tb) [a, b] =
      (Except.ok [ta, tb], twoRegionDisk a b ta tb, []) := by
    simp [getTables, hga, hgb]
  refine ⟨?_, ?_, ?_, ?_, ?_⟩
  · simp [getList, h12, npConcatAxis1, isEmptyTup, toTable, hla, hlb]
  · simp [getList, h1, npConcatAxis1, isEmptyTup, toTable]
  · simp [getList, h2, npConcatAxis1, isEmptyTup, toTable]
  · unfold rowCount
    rw [rowsAppend_getD ta tb 0 (by omega) (by omega)]
    exact List.length_append _ _
  · exact rowsAppend_getD ta tb 64 (by omega) (by omega)

/-- The cached single-record table of the first sample region. -/
def tMarkA : Table := List.replicate 65 [phaCell]

/-- The cached single-record table of the second sample region. -/
def tMarkB : Table := List.replicate 65 [Cell.str ("STC".data)]

/-- C9 witness at two concrete cached regions. -/
theorem c9_merge_rowcount_markers_witness :
    (getList [] (twoRegionDisk ("PHA".data) ("STC".data) tMarkA tMarkB)
        [("PHA".data), ("STC".data)]).1 =
      Except.ok (header, rowsAppend tMarkA tMarkB) ∧
    (getList [] (twoRegionDisk ("PHA".data) ("STC".data) tMarkA tMarkB)
        [("PHA".data)]).1 = Except.ok (header, tMarkA) ∧
    (getList [] (twoRegionDisk ("PHA".data) ("STC".data) tMarkA tMarkB)
        [("STC".data)]).1 = Except.ok (header, tMarkB) ∧
    rowCount (rowsAppend tMarkA tMarkB) = rowCount tMarkA + rowCount tMarkB ∧
    (rowsAppend tMarkA tMarkB).getD 64 [] =
      tMarkA.getD 64 [] ++ tMarkB.getD 64 [] :=
  c9_merge_rowcount_markers ("PHA".data) ("STC".data) tMarkA tMarkB
    (by decide) (by decide) (by decide)
